import Mathlib

/-!
# Verification of the zergswarm specification against its source

Shallow embedding of the zergswarm load-generation swarm (Python) in Lean 4.

Conventions used throughout:
* Python `dict`s are modelled as association lists (`Dict V`); Python dict
  equality is key-set plus per-key value equality, order-insensitive, which is
  `dictEqv` below.  Real Python dicts have unique keys; all operations below
  read a key through `dget` (first occurrence), so theorems proved for all
  association lists hold in particular on the unique-key ones.
* floats carrying durations are modelled as rationals (no claim depends on
  rounding of IEEE arithmetic).
* `defaultdict(int)` / `defaultdict(list)` reads of a missing key are `getD`
  with default `0` / `[]`; the incidental insertion of the default into the
  *read* dict is observationally irrelevant to every statement proved here
  (results are always freshly built dicts) and is not modelled.
-/

namespace Zergswarm

/-- Association-list model of a Python `dict` with `String` keys. -/
abbrev Dict (V : Type) := List (String × V)

/-- `d.get(k)`: value at the first occurrence of key `k`, if any. -/
def dget {V : Type} : Dict V → String → Option V
  | [], _ => none
  | kv :: d, k => if kv.1 = k then some kv.2 else dget d k

/-- `d.get(k, v0)`: lookup with a default value. -/
def dgetD {V : Type} (d : Dict V) (k : String) (v0 : V) : V :=
  (dget d k).getD v0

/-- `d.keys()`. -/
def dkeys {V : Type} (d : Dict V) : List String := d.map Prod.fst

/-- `set(a).union(b)`: the union of two key lists (iteration order of a Python
set is unspecified; all comparisons below are order-insensitive). -/
def keyUnion (a b : List String) : List String := (a ++ b).dedup

/-- Build a dict over a given key list from a value function. -/
def mkDict {V : Type} (ks : List String) (f : String → V) : Dict V :=
  ks.map (fun k => (k, f k))

/-- `d[k] = v` on a Python dict: replace the value if the key exists, append
the pair otherwise. -/
def dset {V : Type} (d : Dict V) (k : String) (v : V) : Dict V :=
  if (dget d k).isSome then
    d.map (fun kv => if kv.1 = k then (kv.1, v) else kv)
  else d ++ [(k, v)]

/-- Python dict equality: same keys, same value at every key. -/
def dictEqv {V : Type} (a b : Dict V) : Prop := ∀ k, dget a k = dget b k

/-! ## Report (`src/zergswarm/reports.py`)

`Report` is a `dict` subclass holding exactly the five sections installed by
`Report.__init__`: `success` maps a name to the list of call durations
(`defaultdict(list)`), the other four map a name to an integer counter
(`defaultdict(int)`). -/

/-- The five section names, i.e. `self.keys()` of a `Report`. -/
def sectionNames : List String :=
  ["success", "request errors", "monitored errors", "other errors", "statistics"]

/-- The `Report` data: the five sections of `Report.__init__`. -/
structure Report where
  success : Dict (List ℚ)
  requestErrors : Dict Int
  monitoredErrors : Dict Int
  otherErrors : Dict Int
  statistics : Dict Int
deriving DecidableEq, Repr

/-- `Report()`: every section empty. -/
def Report.empty : Report := ⟨[], [], [], [], []⟩

/-- Structural (Python `==`) equality of two Reports: the five sections agree
as dicts. -/
def ReportEqv (a b : Report) : Prop :=
  dictEqv a.success b.success ∧ dictEqv a.requestErrors b.requestErrors ∧
  dictEqv a.monitoredErrors b.monitoredErrors ∧ dictEqv a.otherErrors b.otherErrors ∧
  dictEqv a.statistics b.statistics

/-- `defaultdict` increment `d[name] += v`. -/
def dincr (d : Dict Int) (k : String) (v : Int) : Dict Int :=
  if (dget d k).isSome then
    d.map (fun kv => if kv.1 = k then (kv.1, kv.2 + v) else kv)
  else d ++ [(k, v)]

/-- `Report.add_success(name, call_time)`: `self["success"][name].append(call_time)`. -/
def Report.add_success (r : Report) (name : String) (callTime : ℚ) : Report :=
  { r with success :=
      if (dget r.success name).isSome then
        r.success.map (fun kv => if kv.1 = name then (kv.1, kv.2 ++ [callTime]) else kv)
      else r.success ++ [(name, [callTime])] }

/-- `Report.add_error(name, error_type)`: a no-op when `error_type` is
`"success"` or not a key of the Report (the five section names); otherwise
`self[error_type][name] += 1`. -/
def Report.add_error (r : Report) (name errorType : String) : Report :=
  if errorType = "success" ∨ errorType ∉ sectionNames then r
  else if errorType = "request errors" then { r with requestErrors := dincr r.requestErrors name 1 }
  else if errorType = "monitored errors" then { r with monitoredErrors := dincr r.monitoredErrors name 1 }
  else if errorType = "other errors" then { r with otherErrors := dincr r.otherErrors name 1 }
  else { r with statistics := dincr r.statistics name 1 }

/-- `Report.add_statistics(name, value)`. -/
def Report.add_statistics (r : Report) (name : String) (v : Int) : Report :=
  { r with statistics := dincr r.statistics name v }

/-! ### The right-hand operand of `Report.__add__` / input of `Report.from_dict`

Both functions receive an arbitrary `typing.Mapping` and `pop` the five section
keys off it (mutating it).  We model such a mapping by its five optional
sections plus the list of its unrelated keys (whose values neither function
ever inspects).  An integer section carries a flag recording whether it is a
`defaultdict(int)` (missing-key reads yield `0`) or a plain dict (missing-key
reads raise `KeyError`); a `success` section needs no flag because
`Report.__add__` reads it with `.get(k, [])` only. -/

/-- An integer-valued section of a stats mapping. -/
structure IntSec where
  /-- `True` when the section is a `defaultdict(int)`. -/
  isDefault : Bool
  entries : Dict Int
deriving DecidableEq, Repr

/-- A `typing.Mapping` as seen by `Report.__add__` and `Report.from_dict`. -/
structure StatsMap where
  success : Option (Dict (List ℚ))
  requestErrors : Option IntSec
  monitoredErrors : Option IntSec
  otherErrors : Option IntSec
  statistics : Option IntSec
  /-- keys other than the five section names; their values are never read. -/
  extraKeys : List String
deriving DecidableEq, Repr

/-- View a `Report` as the mapping its own dict is: all five sections present,
all of them default-dicts, no other keys. -/
def Report.toStatsMap (r : Report) : StatsMap :=
  ⟨some r.success, some ⟨true, r.requestErrors⟩, some ⟨true, r.monitoredErrors⟩,
   some ⟨true, r.otherErrors⟩, some ⟨true, r.statistics⟩, []⟩

/-- The success-section merge of `Report.__add__`: keys are unioned, and for
each key `r_["success"][k_] = self["success"][k_] + dv_.get(k_, [])`
(list concatenation; with list-valued sections the `isinstance(v_, list)`
guard always passes). -/
def mergeSuccess (a dv : Dict (List ℚ)) : Dict (List ℚ) :=
  mkDict (keyUnion (dkeys a) (dkeys dv)) (fun k => dgetD a k [] ++ dgetD dv k [])

/-- An integer-section merge step of `Report.__add__`: keys are unioned, and
for each key `r_[sec][k_] = self[sec][k_] + dv_[k_]`.  The right operand is
indexed directly, so a plain (non-default) dict missing a key of the union
raises `KeyError` (modelled as `Except.error ()`). -/
def mergeIntSec (a : Dict Int) (s : IntSec) : Except Unit (Dict Int) :=
  let ks := keyUnion (dkeys a) (dkeys s.entries)
  if s.isDefault || ks.all (fun k => (dget s.entries k).isSome) then
    .ok (mkDict ks (fun k => dgetD a k 0 + dgetD s.entries k 0))
  else .error ()

/-- One integer section of `Report.__add__`: the key was already popped; if it
was absent (or held a non-mapping) the result section stays empty, else it is
the `mergeIntSec` merge. -/
def stepInt (a : Dict Int) (sec : Option IntSec) : Except Unit (Dict Int) :=
  match sec with
  | none => .ok []
  | some s => mergeIntSec a s

/-- `Report.__add__(self, data)` for a mapping operand: pops the five section
keys off `data` in order (success, request errors, monitored errors, other
errors, statistics) while building the fresh result Report; a `KeyError`
raised while merging an integer section aborts the evaluation, so the keys of
the sections not yet reached stay in `data`.  Returns the outcome together
with the final state of the right operand.  (The code's non-mapping branch
returns an empty Report; it is outside the mapping-typed domain embedded
here.) -/
def radd (a : Report) (b : StatsMap) : Except Unit Report × StatsMap :=
  let rsucc : Dict (List ℚ) :=
    match b.success with
    | none => []
    | some dv => mergeSuccess a.success dv
  match stepInt a.requestErrors b.requestErrors with
  | .error _ => (.error (), { b with success := none, requestErrors := none })
  | .ok rreq =>
  match stepInt a.monitoredErrors b.monitoredErrors with
  | .error _ => (.error (), { b with success := none, requestErrors := none, monitoredErrors := none })
  | .ok rmon =>
  match stepInt a.otherErrors b.otherErrors with
  | .error _ => (.error (), { b with success := none, requestErrors := none, monitoredErrors := none, otherErrors := none })
  | .ok roth =>
  match stepInt a.statistics b.statistics with
  | .error _ => (.error (), { b with success := none, requestErrors := none, monitoredErrors := none, otherErrors := none, statistics := none })
  | .ok rstat =>
    (.ok ⟨rsucc, rreq, rmon, roth, rstat⟩,
     { b with success := none, requestErrors := none, monitoredErrors := none, otherErrors := none, statistics := none })

/-- The pure integer-section merge of two Reports (the right operand's
sections are default-dicts, so no `KeyError` can occur). -/
def mergeIntD (a dv : Dict Int) : Dict Int :=
  mkDict (keyUnion (dkeys a) (dkeys dv)) (fun k => dgetD a k 0 + dgetD dv k 0)

/-- `A + B` for two Reports (the value of `Report.__add__` when the operand is
a Report, whose sections are all present and default). -/
def rmerge (a b : Report) : Report :=
  ⟨mergeSuccess a.success b.success,
   mergeIntD a.requestErrors b.requestErrors,
   mergeIntD a.monitoredErrors b.monitoredErrors,
   mergeIntD a.otherErrors b.otherErrors,
   mergeIntD a.statistics b.statistics⟩

/-- `Report.to_dict()`: a fresh plain dict per section, with the same items. -/
def Report.to_dict (r : Report) : StatsMap :=
  ⟨some r.success, some ⟨false, r.requestErrors⟩, some ⟨false, r.monitoredErrors⟩,
   some ⟨false, r.otherErrors⟩, some ⟨false, r.statistics⟩, []⟩

/-- `Report.from_dict(data)`: pops each of the five section keys off `data`
and, when present (and a mapping), copies its items into the fresh Report's
empty section via `update`.  Returns the Report together with the final state
of `data`. -/
def from_dict (b : StatsMap) : Report × StatsMap :=
  (⟨(b.success).getD [],
    (b.requestErrors.map IntSec.entries).getD [],
    (b.monitoredErrors.map IntSec.entries).getD [],
    (b.otherErrors.map IntSec.entries).getD [],
    (b.statistics.map IntSec.entries).getD []⟩,
   { b with success := none, requestErrors := none, monitoredErrors := none, otherErrors := none, statistics := none })

/-! ## Dictionary lemmas -/

theorem dget_mkDict {V : Type} (ks : List String) (f : String → V) (k : String) :
    dget (mkDict ks f) k = if k ∈ ks then some (f k) else none := by
  induction ks with
  | nil => simp [mkDict, dget]
  | cons a t ih =>
    by_cases h : a = k
    · subst h; simp [mkDict, dget]
    · simp only [mkDict, List.map_cons, dget, List.mem_cons] at ih ⊢
      rw [if_neg h, ih]
      simp [Ne.symm h]

theorem mem_dkeys {V : Type} (d : Dict V) (k : String) :
    k ∈ dkeys d ↔ (dget d k).isSome := by
  induction d with
  | nil => simp [dkeys, dget]
  | cons kv t ih =>
    simp only [dkeys, List.map_cons, List.mem_cons, dget] at ih ⊢
    by_cases h : kv.1 = k
    · simp [h]
    · rw [if_neg h]
      constructor
      · rintro (h1 | h1)
        · exact absurd h1.symm h
        · exact ih.mp h1
      · intro h1
        exact Or.inr (ih.mpr h1)

theorem mem_keyUnion (a b : List String) (k : String) :
    k ∈ keyUnion a b ↔ k ∈ a ∨ k ∈ b := by
  simp [keyUnion, List.mem_dedup]

theorem dgetD_eq_zero_of_not_isSome (d : Dict Int) (k : String)
    (h : ¬ (dget d k).isSome) : dgetD d k 0 = 0 := by
  unfold dgetD
  cases hd : dget d k with
  | none => rfl
  | some v => rw [hd] at h; simp at h

theorem dgetD_eq_nil_of_not_isSome (d : Dict (List ℚ)) (k : String)
    (h : ¬ (dget d k).isSome) : dgetD d k [] = [] := by
  unfold dgetD
  cases hd : dget d k with
  | none => rfl
  | some v => rw [hd] at h; simp at h

theorem dget_mergeIntD (a b : Dict Int) (k : String) :
    dget (mergeIntD a b) k =
      if (dget a k).isSome ∨ (dget b k).isSome
      then some (dgetD a k 0 + dgetD b k 0) else none := by
  rw [mergeIntD, dget_mkDict]
  simp [mem_keyUnion, mem_dkeys]

theorem isSome_mergeIntD (a b : Dict Int) (k : String) :
    (dget (mergeIntD a b) k).isSome ↔ (dget a k).isSome ∨ (dget b k).isSome := by
  rw [dget_mergeIntD]
  by_cases h : (dget a k).isSome ∨ (dget b k).isSome <;> simp [h]

theorem dgetD_mergeIntD (a b : Dict Int) (k : String) :
    dgetD (mergeIntD a b) k 0 = dgetD a k 0 + dgetD b k 0 := by
  by_cases h : (dget a k).isSome ∨ (dget b k).isSome
  · unfold dgetD
    rw [dget_mergeIntD, if_pos h]
    rfl
  · push_neg at h
    unfold dgetD
    rw [dget_mergeIntD, if_neg (by tauto)]
    rw [show (none : Option Int).getD 0 = 0 from rfl]
    have h1 := dgetD_eq_zero_of_not_isSome a k h.1
    have h2 := dgetD_eq_zero_of_not_isSome b k h.2
    unfold dgetD at h1 h2
    omega

theorem dget_mergeSuccess (a b : Dict (List ℚ)) (k : String) :
    dget (mergeSuccess a b) k =
      if (dget a k).isSome ∨ (dget b k).isSome
      then some (dgetD a k [] ++ dgetD b k []) else none := by
  rw [mergeSuccess, dget_mkDict]
  simp [mem_keyUnion, mem_dkeys]

theorem isSome_mergeSuccess (a b : Dict (List ℚ)) (k : String) :
    (dget (mergeSuccess a b) k).isSome ↔ (dget a k).isSome ∨ (dget b k).isSome := by
  rw [dget_mergeSuccess]
  by_cases h : (dget a k).isSome ∨ (dget b k).isSome <;> simp [h]

theorem dgetD_mergeSuccess (a b : Dict (List ℚ)) (k : String) :
    dgetD (mergeSuccess a b) k [] = dgetD a k [] ++ dgetD b k [] := by
  by_cases h : (dget a k).isSome ∨ (dget b k).isSome
  · simp only [dgetD, dget_mergeSuccess, if_pos h]
    rfl
  · push_neg at h
    have ha : dget a k = none := Option.not_isSome_iff_eq_none.mp (by simpa using h.1)
    have hb : dget b k = none := Option.not_isSome_iff_eq_none.mp (by simpa using h.2)
    simp [dgetD, dget_mergeSuccess, ha, hb]

/-! ## Merge laws for the sections -/

theorem mergeIntD_assoc (a b c : Dict Int) :
    dictEqv (mergeIntD (mergeIntD a b) c) (mergeIntD a (mergeIntD b c)) := by
  intro k
  by_cases ha : (dget a k).isSome <;> by_cases hb : (dget b k).isSome <;>
    by_cases hc : (dget c k).isSome <;>
    simp [dget_mergeIntD, isSome_mergeIntD, dgetD_mergeIntD, ha, hb, hc, add_assoc]

theorem mergeSuccess_assoc (a b c : Dict (List ℚ)) :
    dictEqv (mergeSuccess (mergeSuccess a b) c) (mergeSuccess a (mergeSuccess b c)) := by
  intro k
  by_cases ha : (dget a k).isSome <;> by_cases hb : (dget b k).isSome <;>
    by_cases hc : (dget c k).isSome <;>
    simp [dget_mergeSuccess, isSome_mergeSuccess, dgetD_mergeSuccess, ha, hb, hc]

theorem mergeIntD_empty_right (a : Dict Int) : dictEqv (mergeIntD a []) a := by
  intro k
  rw [dget_mergeIntD]
  cases h : dget a k with
  | none => simp [h, dget]
  | some v => simp [h, dget, dgetD]

theorem mergeIntD_empty_left (a : Dict Int) : dictEqv (mergeIntD [] a) a := by
  intro k
  rw [dget_mergeIntD]
  cases h : dget a k with
  | none => simp [h, dget]
  | some v => simp [h, dget, dgetD]

theorem mergeSuccess_empty_right (a : Dict (List ℚ)) : dictEqv (mergeSuccess a []) a := by
  intro k
  rw [dget_mergeSuccess]
  cases h : dget a k with
  | none => simp [h, dget]
  | some v => simp [h, dget, dgetD]

theorem mergeSuccess_empty_left (a : Dict (List ℚ)) : dictEqv (mergeSuccess [] a) a := by
  intro k
  rw [dget_mergeSuccess]
  cases h : dget a k with
  | none => simp [h, dget]
  | some v => simp [h, dget, dgetD]

theorem mergeIntD_comm (a b : Dict Int) : dictEqv (mergeIntD a b) (mergeIntD b a) := by
  intro k
  by_cases ha : (dget a k).isSome <;> by_cases hb : (dget b k).isSome <;>
    simp [dget_mergeIntD, ha, hb, add_comm]

/-- The mapping left behind once all five section keys are popped. -/
def emptiedOf (b : StatsMap) : StatsMap :=
  { b with success := none, requestErrors := none, monitoredErrors := none, otherErrors := none, statistics := none }

/-- Every integer section that is present is a `defaultdict(int)` (as in any
mapping produced by `Report()` or `Report.from_dict`). -/
def allSectionsDefault (b : StatsMap) : Bool :=
  b.requestErrors.all IntSec.isDefault && b.monitoredErrors.all IntSec.isDefault &&
  b.otherErrors.all IntSec.isDefault && b.statistics.all IntSec.isDefault

/-- Whether a `Report.__add__` evaluation completed without raising. -/
def isOkB (e : Except Unit Report) : Bool :=
  match e with
  | .ok _ => true
  | .error _ => false

theorem stepInt_ok_of_default (a : Dict Int) (sec : Option IntSec)
    (h : sec.all IntSec.isDefault = true) : ∃ d, stepInt a sec = .ok d := by
  cases sec with
  | none => exact ⟨[], rfl⟩
  | some s =>
    simp only [Option.all] at h
    refine ⟨mkDict (keyUnion (dkeys a) (dkeys s.entries))
      (fun k => dgetD a k 0 + dgetD s.entries k 0), ?_⟩
    simp [stepInt, mergeIntSec, h]

/-- On a `Report` right operand (all sections present and default), in-code
addition computes exactly the pure merge `rmerge` and empties the operand. -/
theorem radd_on_report (a b : Report) :
    radd a (Report.toStatsMap b) = (.ok (rmerge a b), emptiedOf (Report.toStatsMap b)) := rfl

/-- C3, counterexample: with `A.success = ⦃x ↦ [1]⦄` and `B.success = ⦃x ↦ [2]⦄`,
`A + B` stores `[1, 2]` under `x` while `B + A` stores `[2, 1]`, so the two are
not structurally equal: merge is not commutative as claimed. -/
theorem report_merge_not_comm :
    ¬ ReportEqv (rmerge ⟨[("x", [1])], [], [], [], []⟩ ⟨[("x", [2])], [], [], [], []⟩)
                (rmerge ⟨[("x", [2])], [], [], [], []⟩ ⟨[("x", [1])], [], [], [], []⟩) := by
  intro h
  have h1 := h.1 "x"
  revert h1
  decide

/-- C3 (amended): Report merge is associative with the empty Report as a
two-sided identity; it is commutative on the four integer sections and on the
key set of every section, and the success lists of `A+B` and `B+A` agree up to
permutation per name — but merge is not structurally commutative (success
duration lists concatenate in operand order). -/
theorem report_merge_monoid_laws (a b c : Report) :
    ReportEqv (rmerge (rmerge a b) c) (rmerge a (rmerge b c)) ∧
    ReportEqv (rmerge a Report.empty) a ∧
    ReportEqv (rmerge Report.empty a) a ∧
    (dictEqv (rmerge a b).requestErrors (rmerge b a).requestErrors ∧
     dictEqv (rmerge a b).monitoredErrors (rmerge b a).monitoredErrors ∧
     dictEqv (rmerge a b).otherErrors (rmerge b a).otherErrors ∧
     dictEqv (rmerge a b).statistics (rmerge b a).statistics) ∧
    (∀ k, ((dget (rmerge a b).success k).isSome ↔ (dget (rmerge b a).success k).isSome) ∧
      (dgetD (rmerge a b).success k []).Perm (dgetD (rmerge b a).success k [])) := by
  refine ⟨⟨mergeSuccess_assoc _ _ _, mergeIntD_assoc _ _ _, mergeIntD_assoc _ _ _,
      mergeIntD_assoc _ _ _, mergeIntD_assoc _ _ _⟩,
    ⟨mergeSuccess_empty_right _, mergeIntD_empty_right _, mergeIntD_empty_right _,
      mergeIntD_empty_right _, mergeIntD_empty_right _⟩,
    ⟨mergeSuccess_empty_left _, mergeIntD_empty_left _, mergeIntD_empty_left _,
      mergeIntD_empty_left _, mergeIntD_empty_left _⟩,
    ⟨mergeIntD_comm _ _, mergeIntD_comm _ _, mergeIntD_comm _ _, mergeIntD_comm _ _⟩,
    ?_⟩
  intro k
  constructor
  · rw [show (rmerge a b).success = mergeSuccess a.success b.success from rfl,
      show (rmerge b a).success = mergeSuccess b.success a.success from rfl,
      isSome_mergeSuccess, isSome_mergeSuccess]
    exact or_comm
  · rw [show (rmerge a b).success = mergeSuccess a.success b.success from rfl,
      show (rmerge b a).success = mergeSuccess b.success a.success from rfl,
      dgetD_mergeSuccess, dgetD_mergeSuccess]
    exact List.perm_append_comm

/-- C4, counterexample: `add_error(name, "statistics")` is not a no-op even
though `"statistics"` is outside `{request errors, monitored errors, other
errors}` — it increments the statistics section. -/
theorem add_error_statistics_mutates :
    Report.add_error Report.empty "x" "statistics" ≠ Report.empty := by decide

/-- C4 (amended): `add_error` with a kind that is `"success"` or not one of the
Report's five section keys (success, request errors, monitored errors, other
errors, statistics) leaves the Report unchanged; in particular
`kind = "success"` is a no-op, but `kind = "statistics"` is not covered. -/
theorem add_error_unknown_kind_noop (r : Report) (name kind : String)
    (h : kind = "success" ∨ kind ∉ sectionNames) :
    Report.add_error r name kind = r := by
  simp only [Report.add_error]
  rw [if_pos h]

/-- Witness for `add_error_unknown_kind_noop` at kind `"latency"`. -/
theorem add_error_unknown_kind_noop_witness :
    ("latency" = "success" ∨ "latency" ∉ sectionNames) ∧
    Report.add_error Report.empty "n" "latency" = Report.empty :=
  ⟨Or.inr (by decide),
   add_error_unknown_kind_noop Report.empty "n" "latency" (Or.inr (by decide))⟩

/-- C7: `from_dict(to_dict(R))` rebuilds a Report with exactly the same five
sections and per-name values as `R`. -/
theorem from_dict_to_dict_roundtrip (r : Report) : (from_dict (Report.to_dict r)).1 = r := rfl

/-- C10, counterexample: with `A.request errors = ⦃x ↦ 1⦄` and
`B = ⦃request errors ↦ ⦃⦄ (plain dict), statistics ↦ ⦃s ↦ 2⦄⦄`, evaluating
`A + B` raises `KeyError` at `B["request errors"]["x"]`, so the later pops
never run and `B` still carries its `statistics` key afterwards: `A + B` does
not always remove all five section keys from `B`. -/
theorem radd_can_leave_keys :
    (radd ⟨[], [("x", 1)], [], [], []⟩
      ⟨none, some ⟨false, []⟩, none, none, some ⟨false, [("s", 2)]⟩, []⟩).2.statistics ≠
      none := by decide

/-- C10 (amended): `Report.from_dict(B)` always removes the five section keys
from `B` and keeps the other keys; `A + B` does so whenever its evaluation
completes without raising, which is guaranteed whenever every integer section
present in `B` is a `defaultdict(int)` (e.g. when `B` is a Report); when a
missing-key lookup raises, the sections not yet reached keep their keys. -/
theorem stats_mapping_popped (a : Report) (b : StatsMap) :
    (from_dict b).2 = emptiedOf b ∧
    (isOkB (radd a b).1 = true → (radd a b).2 = emptiedOf b) ∧
    (allSectionsDefault b = true → isOkB (radd a b).1 = true) := by
  refine ⟨rfl, ?_, ?_⟩
  · intro h
    simp only [radd] at h ⊢
    cases h1 : stepInt a.requestErrors b.requestErrors with
    | error e => simp [h1, isOkB] at h
    | ok rreq =>
      cases h2 : stepInt a.monitoredErrors b.monitoredErrors with
      | error e => simp [h1, h2, isOkB] at h
      | ok rmon =>
        cases h3 : stepInt a.otherErrors b.otherErrors with
        | error e => simp [h1, h2, h3, isOkB] at h
        | ok roth =>
          cases h4 : stepInt a.statistics b.statistics with
          | error e => simp [h1, h2, h3, h4, isOkB] at h
          | ok rstat => simp [h1, h2, h3, h4, emptiedOf]
  · intro hdef
    simp only [allSectionsDefault, Bool.and_eq_true] at hdef
    obtain ⟨⟨⟨hd1, hd2⟩, hd3⟩, hd4⟩ := hdef
    obtain ⟨d1, h1⟩ := stepInt_ok_of_default a.requestErrors b.requestErrors hd1
    obtain ⟨d2, h2⟩ := stepInt_ok_of_default a.monitoredErrors b.monitoredErrors hd2
    obtain ⟨d3, h3⟩ := stepInt_ok_of_default a.otherErrors b.otherErrors hd3
    obtain ⟨d4, h4⟩ := stepInt_ok_of_default a.statistics b.statistics hd4
    simp [radd, h1, h2, h3, h4, isOkB]

/-- Witness for `stats_mapping_popped`: a Report operand has only default
sections, so addition completes and pops every section key. -/
theorem stats_mapping_popped_witness :
    allSectionsDefault (Report.toStatsMap ⟨[], [("x", 1)], [], [], []⟩) = true ∧
    isOkB (radd Report.empty (Report.toStatsMap ⟨[], [("x", 1)], [], [], []⟩)).1 = true :=
  ⟨by decide,
   (stats_mapping_popped Report.empty (Report.toStatsMap ⟨[], [("x", 1)], [], [], []⟩)).2.2
     (by decide)⟩

/-! ## Overmind: partition plan and config delivery (`src/zergswarm/overmind.py`) -/

/-- `math.ceil(n / m)` for naturals (exact; the float division of the source
is modelled by exact rational arithmetic). -/
def natCeilDiv (n m : Nat) : Nat := (n + m - 1) / m

/-- `Overmind.required_colony_count(hatchlings, colony_slots)`:
`hatchlings / colony_slots > max` is the exact comparison
`max * colony_slots < hatchlings` for positive `colony_slots`, and the final
line clamps the answer to at least 1. -/
def required_colony_count (minHpc maxHpc hatchlings colonySlots : Nat) : Nat :=
  let ans :=
    if maxHpc * colonySlots < hatchlings then colonySlots
    else if hatchlings < colonySlots * minHpc then natCeilDiv hatchlings minHpc
    else natCeilDiv hatchlings maxHpc
  if 1 < ans then ans else 1

/-- The partition vector of `Overmind.__init__`:
`n1_ = n % K; x_ = n // K;`
`[x_] * (K - n1_) + [x_ + 1] * n1_`. -/
def hatchlings_per_col (n k : Nat) : List Nat :=
  List.replicate (k - n % k) (n / k) ++ List.replicate (n % k) (n / k + 1)

theorem natCeilDiv_le (n m s : Nat) (hm : 1 ≤ m) (h : n ≤ s * m) :
    natCeilDiv n m ≤ s := by
  unfold natCeilDiv
  have hlt : n + m - 1 < (s + 1) * m := by
    have : (s + 1) * m = s * m + m := by ring
    omega
  have := (Nat.div_lt_iff_lt_mul (by omega : 0 < m)).mpr hlt
  omega

theorem natCeilDiv_of_mod_ne (n k : Nat) (hk : 0 < k) (h : n % k ≠ 0) :
    natCeilDiv n k = n / k + 1 := by
  have hdm := Nat.div_add_mod n k
  have hlt := Nat.mod_lt n hk
  have hle : n / k + 1 ≤ (n + k - 1) / k := by
    rw [Nat.le_div_iff_mul_le hk]
    have : (n / k + 1) * k = k * (n / k) + k := by ring
    omega
  have hlt2 : (n + k - 1) / k < n / k + 2 := by
    rw [Nat.div_lt_iff_lt_mul hk]
    have : (n / k + 2) * k = k * (n / k) + k + k := by ring
    omega
  unfold natCeilDiv
  omega

theorem required_colony_count_pos (minHpc maxHpc n slots : Nat) :
    1 ≤ required_colony_count minHpc maxHpc n slots := by
  simp only [required_colony_count]
  split_ifs <;> omega

theorem required_colony_count_le_slots (minHpc maxHpc n slots : Nat)
    (hmin : 1 ≤ minHpc) (hmax : 1 ≤ maxHpc) (hslots : 1 ≤ slots) :
    required_colony_count minHpc maxHpc n slots ≤ slots := by
  simp only [required_colony_count]
  split_ifs <;>
    first
      | omega
      | exact natCeilDiv_le n minHpc slots hmin (by omega)
      | (have h' : n ≤ slots * maxHpc := by
           have := Nat.mul_comm maxHpc slots
           omega
         exact natCeilDiv_le n maxHpc slots hmax h')

theorem hatchlings_per_col_spec (n k : Nat) (hk : 1 ≤ k) :
    (hatchlings_per_col n k).length = k ∧
    (hatchlings_per_col n k).sum = n ∧
    (hatchlings_per_col n k).take (k - n % k) = List.replicate (k - n % k) (n / k) ∧
    (hatchlings_per_col n k).drop (k - n % k) = List.replicate (n % k) (natCeilDiv n k) ∧
    (∀ x ∈ hatchlings_per_col n k, ∀ y ∈ hatchlings_per_col n k, x ≤ y + 1) := by
  have hmod : n % k < k := Nat.mod_lt n (by omega)
  have hdm : k * (n / k) + n % k = n := Nat.div_add_mod n k
  refine ⟨?_, ?_, ?_, ?_, ?_⟩
  · simp only [hatchlings_per_col, List.length_append, List.length_replicate]
    omega
  · simp only [hatchlings_per_col, List.sum_append, List.sum_replicate, smul_eq_mul]
    have e1 : (n % k) * (n / k + 1) = (n % k) * (n / k) + n % k := by
      rw [Nat.mul_add, Nat.mul_one]
    have e2 : (k - n % k) * (n / k) = k * (n / k) - (n % k) * (n / k) :=
      Nat.sub_mul k (n % k) (n / k)
    have e3 : (n % k) * (n / k) ≤ k * (n / k) :=
      Nat.mul_le_mul_right (n / k) (le_of_lt hmod)
    omega
  · simp only [hatchlings_per_col]
    rw [List.take_left' (by simp)]
  · simp only [hatchlings_per_col]
    rw [List.drop_left' (by simp)]
    by_cases h0 : n % k = 0
    · simp [h0]
    · rw [natCeilDiv_of_mod_ne n k (by omega) h0]
  · intro x hx y hy
    simp only [hatchlings_per_col, List.mem_append, List.mem_replicate] at hx hy
    rcases hx with ⟨_, hx⟩ | ⟨_, hx⟩ <;> rcases hy with ⟨_, hy⟩ | ⟨_, hy⟩ <;> omega

/-- C5: for `K = required_colony_count(N, slots)` (with at least one colony
slot and positive min/max hatchlings-per-colony settings), `K ≥ 1`,
`K ≤ slots`, and the partition vector has length K, sums to N, starts with
`K - (N mod K)` entries equal to `⌊N/K⌋`, ends with `N mod K` entries equal to
`⌈N/K⌉`, and all entries differ by at most 1. -/
theorem partition_plan_correct (minHpc maxHpc n slots : Nat)
    (hmin : 1 ≤ minHpc) (hmax : 1 ≤ maxHpc) (hslots : 1 ≤ slots) :
    ∀ k, k = required_colony_count minHpc maxHpc n slots →
    1 ≤ k ∧ k ≤ slots ∧
    (hatchlings_per_col n k).length = k ∧
    (hatchlings_per_col n k).sum = n ∧
    (hatchlings_per_col n k).take (k - n % k) = List.replicate (k - n % k) (n / k) ∧
    (hatchlings_per_col n k).drop (k - n % k) = List.replicate (n % k) (natCeilDiv n k) ∧
    ∀ x ∈ hatchlings_per_col n k, ∀ y ∈ hatchlings_per_col n k, x ≤ y + 1 := by
  rintro k rfl
  have h1 := required_colony_count_pos minHpc maxHpc n slots
  have h2 := required_colony_count_le_slots minHpc maxHpc n slots hmin hmax hslots
  obtain ⟨hl, hs, ht, hd, hp⟩ := hatchlings_per_col_spec n _ h1
  exact ⟨h1, h2, hl, hs, ht, hd, hp⟩

/-- Witness for `partition_plan_correct`: N = 250 hatchlings over 8 slots with
the default min 100 / max 200 settings gives K = 3 (250 < 800, ⌈250/100⌉ = 3). -/
theorem partition_plan_correct_witness :
    (1 ≤ (100 : Nat) ∧ 1 ≤ (200 : Nat) ∧ 1 ≤ (8 : Nat) ∧
      (3 : Nat) = required_colony_count 100 200 250 8) ∧
    (1 ≤ (3 : Nat) ∧ (3 : Nat) ≤ 8 ∧
     (hatchlings_per_col 250 3).length = 3 ∧
     (hatchlings_per_col 250 3).sum = 250 ∧
     (hatchlings_per_col 250 3).take (3 - 250 % 3) = List.replicate (3 - 250 % 3) (250 / 3) ∧
     (hatchlings_per_col 250 3).drop (3 - 250 % 3) = List.replicate (250 % 3) (natCeilDiv 250 3) ∧
     ∀ x ∈ hatchlings_per_col 250 3, ∀ y ∈ hatchlings_per_col 250 3, x ≤ y + 1) :=
  ⟨⟨by decide, by decide, by decide, by decide⟩,
   partition_plan_correct 100 200 250 8 (by decide) (by decide) (by decide) 3 (by decide)⟩

/-- `Overmind._hatchlings_config(data)`: with an empty pending list or a
missing/falsy/unknown `client_id` the answer is empty and the pending list is
untouched; otherwise the first `n = self._colonies[id_]` pending configs are
returned and dropped from the pending list.  `configs` is the pending-configs
list, `colonies` the colony→count assignment map; a `client_id` of `some ""`
is falsy like a missing one.  The wrapping of the answer into the reply
message does not touch the state and is elided. -/
def hatchlings_config {α : Type} (configs : List α) (colonies : Dict Nat)
    (cid : Option String) : List α × List α :=
  if configs.isEmpty then ([], configs)
  else
    match cid with
    | none => ([], configs)
    | some id =>
      if id = "" ∨ dget colonies id = none then ([], configs)
      else
        let n := dgetD colonies id 0
        (configs.take n, configs.drop n)

/-- A sequence of `get_hatchlings_config` requests dispatched one at a time
(the bus serializes handler invocations): returns the per-request answers and
the final pending list. -/
def run_hatchlings_requests {α : Type} (colonies : Dict Nat) :
    List α → List (Option String) → List (List α) × List α
  | configs, [] => ([], configs)
  | configs, cid :: ids =>
      let p := hatchlings_config configs colonies cid
      let rest := run_hatchlings_requests colonies p.2 ids
      (p.1 :: rest.1, rest.2)

theorem hatchlings_config_slice {α : Type} (configs : List α) (colonies : Dict Nat)
    (cid : Option String) :
    ∃ m, hatchlings_config configs colonies cid = (configs.take m, configs.drop m) := by
  unfold hatchlings_config
  split_ifs with h1
  · exact ⟨0, by simp⟩
  · cases cid with
    | none => exact ⟨0, by simp⟩
    | some id =>
      show ∃ m, (if id = "" ∨ dget colonies id = none then ([], configs)
        else (configs.take (dgetD colonies id 0), configs.drop (dgetD colonies id 0))) = _
      split_ifs with h2
      · exact ⟨0, by simp⟩
      · exact ⟨dgetD colonies id 0, rfl⟩

theorem hatchlings_config_unknown {α : Type} (configs : List α) (colonies : Dict Nat)
    (id : String) (h : dget colonies id = none) :
    hatchlings_config configs colonies (some id) = ([], configs) := by
  unfold hatchlings_config
  by_cases h1 : configs.isEmpty
  · rw [if_pos h1]
  · rw [if_neg h1]
    show (if id = "" ∨ dget colonies id = none then ([], configs) else _) = ([], configs)
    rw [if_pos (Or.inr h)]

/-- C8: any sequence of `get_hatchlings_config` requests is answered with
consecutive slices of the pending list: the concatenation of all answers is a
prefix (`take m`) of the original list and the remaining pending list is the
matching suffix (`drop m`) — so the slices are contiguous, pairwise disjoint,
and each config is delivered at most once; and a request from an unknown
client id receives the empty list and leaves the pending list unchanged. -/
theorem hatchlings_config_delivery {α : Type} (colonies : Dict Nat)
    (ids : List (Option String)) (configs : List α) :
    (∃ m, (run_hatchlings_requests colonies configs ids).1.flatten = configs.take m ∧
          (run_hatchlings_requests colonies configs ids).2 = configs.drop m) ∧
    (∀ id : String, dget colonies id = none →
        hatchlings_config configs colonies (some id) = ([], configs)) := by
  constructor
  · induction ids generalizing configs with
    | nil => exact ⟨0, by simp [run_hatchlings_requests]⟩
    | cons cid ids ih =>
      obtain ⟨k, hk⟩ := hatchlings_config_slice configs colonies cid
      obtain ⟨m, hm1, hm2⟩ := ih (configs.drop k)
      refine ⟨k + m, ?_, ?_⟩
      · simp only [run_hatchlings_requests, hk, List.flatten_cons]
        rw [hm1, List.take_add]
      · simp only [run_hatchlings_requests, hk]
        rw [hm2, List.drop_drop, Nat.add_comm]
  · intro id h
    exact hatchlings_config_unknown configs colonies id h

/-- Witness for `hatchlings_config_delivery`: client id `"z"` is not in the
assignment map, so it receives no configs and consumes none. -/
theorem hatchlings_config_delivery_witness :
    dget ([("a", 2)] : Dict Nat) "z" = none ∧
    hatchlings_config [1, 2, 3] [("a", 2)] (some "z") = ([], [1, 2, 3]) :=
  ⟨by decide,
   (hatchlings_config_delivery [("a", 2)] [some "a"] [1, 2, 3]).2 "z" (by decide)⟩

/-! ## Colony task registration and the ordered discipline (`src/zergswarm/colony.py`) -/

/-- The attributes a `Colony.task` decorator can attach to a coroutine
function, plus an identifier standing for the underlying function.  A fresh
(undecorated) function has none of the attributes. -/
structure TaskFunc where
  task : Option String := none
  index : Option Int := none
  weight : Option Nat := none
  count : Option Nat := none
  fid : Nat
deriving DecidableEq, Repr

/-- `Colony.task("ordered", index=…, count=…)` applied to a coroutine
function: sets `fnc.task = "ordered"`, `fnc.index = kwargs.get("index", -1)`
and `fnc.weight = kwargs.get("count", 1)` — the repetition count is stored
under the `weight` attribute; no `count` attribute is ever set. -/
def ordered_decorator (idx : Option Int) (cnt : Option Nat) (f : TaskFunc) : TaskFunc :=
  { f with task := some "ordered", index := some (idx.getD (-1)), weight := some (cnt.getD 1) }

/-- `getattr(x_, "index", -1)`, the sort key of `Colony.__init__`. -/
def taskIndex (f : TaskFunc) : Int := f.index.getD (-1)

/-- Stable insertion keeping ascending `taskIndex` order (ties keep source
order, as Python's stable `list.sort` does). -/
def insertByIndex (f : TaskFunc) : List TaskFunc → List TaskFunc
  | [] => [f]
  | g :: gs => if taskIndex g ≤ taskIndex f then g :: insertByIndex f gs else f :: g :: gs

/-- Stable ascending sort by `taskIndex`. -/
def sortByIndex (fs : List TaskFunc) : List TaskFunc :=
  fs.foldl (fun acc f => insertByIndex f acc) []

/-- `Colony.__init__`: collect the class's methods whose `task` attribute is
`"ordered"` (in class order) into `tasks_ordered` and sort them ascending by
`getattr(x_, "index", -1)`. -/
def tasks_ordered (classMethods : List TaskFunc) : List TaskFunc :=
  sortByIndex (classMethods.filter (fun f => f.task = some "ordered"))

/-- `Hatchery.run_ordered`: for each ordered task in list order, await it
`task_.__dict__.get("count", 1)` times sequentially.  The value is the trace
of invoked function ids, in invocation order. -/
def run_ordered_trace (tasks : List TaskFunc) : List Nat :=
  (tasks.map (fun t => List.replicate (t.count.getD 1) t.fid)).flatten

/-- C2, the code evaluated at the failing input: a single task decorated with
`ordered(index=0, count=3)` is invoked exactly once by the ordered
discipline — the decorator stored the count in the `weight` attribute
(`fnc.weight = kwargs.get("count", 1)`) while `run_ordered` reads the never
set `count` attribute, so its `get("count", 1)` default of 1 always wins. -/
theorem ordered_count_ignored :
    run_ordered_trace (tasks_ordered [ordered_decorator (some 0) (some 3) { fid := 7 }])
      = [7] ∧
    (ordered_decorator (some 0) (some 3) { fid := 7 }).weight = some 3 ∧
    (ordered_decorator (some 0) (some 3) { fid := 7 }).count = none := by decide

/-! ## Bus round trip (`src/zergswarm/comm_center.py`) -/

/-- A Python value in a bus-message payload (the bus itself only reads and
writes strings and `None` in the fields it touches). -/
inductive PVal
  | str (s : String)
  | pnone
deriving DecidableEq, Repr

/-- Python truthiness of a payload value (`None` and `""` are falsy). -/
def PVal.truthy : PVal → Bool
  | .str s => s != ""
  | .pnone => false

/-- A bus message `{"message_type": …, "payload": …}`.  The UTF-8 JSON wire
encoding of a well-formed frame is lossless, so the transport is modelled as
delivering the structured message itself. -/
structure BusMsg where
  message_type : Option String
  payload : Dict PVal
deriving DecidableEq, Repr

/-- The outcome of invoking a registered handler: a returned mapping, a
returned `None`, or a raised exception (stringified). -/
inductive HandlerRes
  | ret (d : Option (Dict PVal))
  | exn (e : String)
deriving DecidableEq, Repr

/-- One iteration of `ZeroCommServer.request_processor` on a decoded message:
read `client_id` from the payload; with no registered handler for
`message_type`, reply `{"error", {client_id, error}}`; when the handler
returns a dict, stamp `client_id` onto it and reply with type
`<type>_reply`; when it returns `None` (the `ans_["client_id"] = …` stamping
then raises `TypeError`) or raises, reply with an error payload carrying
`client_id` and no message type. -/
def request_processor_step (handlers : Dict (Dict PVal → HandlerRes)) (m : BusMsg) :
    BusMsg :=
  let clientId := dgetD m.payload "client_id" PVal.pnone
  match m.message_type.bind (fun t => (dget handlers t).map (fun h => (t, h))) with
  | none => ⟨some "error", [("client_id", clientId), ("error", PVal.str "invalid message type")]⟩
  | some (t, h) =>
    match h m.payload with
    | .ret (some d) => ⟨some (t ++ "_reply"), dset d "client_id" clientId⟩
    | .ret none => ⟨none, [("client_id", clientId), ("error", PVal.str "TypeError")]⟩
    | .exn e => ⟨none, [("client_id", clientId), ("error", PVal.str e)]⟩

/-- The payload actually sent by `ZeroCommClient.call`: the client id is
injected when the caller's payload has no truthy `client_id`. -/
def requestPayload (selfId : String) (data : Dict PVal) : Dict PVal :=
  if (dgetD data "client_id" PVal.pnone).truthy then data
  else dset data "client_id" (PVal.str selfId)

/-- `ZeroCommClient.call(message_type, data)` with the reply produced by one
server-loop iteration (request/reply transport): returns the reply message
and, as the call's return value, its payload. -/
def client_call (selfId : String) (handlers : Dict (Dict PVal → HandlerRes))
    (messageType : String) (data : Dict PVal) : BusMsg × Dict PVal :=
  let reply := request_processor_step handlers ⟨some messageType, requestPayload selfId data⟩
  (reply, reply.payload)

theorem dget_map_update {V : Type} (d : Dict V) (k : String) (v : V)
    (h : (dget d k).isSome) :
    dget (d.map (fun kv => if kv.1 = k then (kv.1, v) else kv)) k = some v := by
  induction d with
  | nil => simp [dget] at h
  | cons kv t ih =>
    by_cases hk : kv.1 = k
    · simp [dget, hk]
    · have h' : (dget t k).isSome := by simpa [dget, hk] using h
      simpa [dget, hk] using ih h'

theorem dget_append_single {V : Type} (d : Dict V) (k : String) (v : V)
    (h : dget d k = none) :
    dget (d ++ [(k, v)]) k = some v := by
  induction d with
  | nil => simp [dget]
  | cons kv t ih =>
    by_cases hk : kv.1 = k
    · rw [dget, if_pos hk] at h
      exact absurd h (by simp)
    · rw [dget, if_neg hk] at h
      simpa [dget, hk] using ih h

theorem dget_dset_self {V : Type} (d : Dict V) (k : String) (v : V) :
    dget (dset d k v) k = some v := by
  unfold dset
  split_ifs with h
  · exact dget_map_update d k v h
  · exact dget_append_single d k v (Option.not_isSome_iff_eq_none.mp h)

theorem request_processor_step_registered (handlers : Dict (Dict PVal → HandlerRes))
    (t : String) (hdl : Dict PVal → HandlerRes) (p : Dict PVal)
    (hreg : dget handlers t = some hdl) :
    request_processor_step handlers ⟨some t, p⟩ =
      match hdl p with
      | .ret (some d) =>
          ⟨some (t ++ "_reply"), dset d "client_id" (dgetD p "client_id" PVal.pnone)⟩
      | .ret none =>
          ⟨none, [("client_id", dgetD p "client_id" PVal.pnone),
                  ("error", PVal.str "TypeError")]⟩
      | .exn e =>
          ⟨none, [("client_id", dgetD p "client_id" PVal.pnone), ("error", PVal.str e)]⟩ := by
  simp [request_processor_step, hreg]

/-- C9: calling a registered message type `t` yields a reply whose message
type, whenever one is present, is `t ++ "_reply"`; the reply payload always
carries the key `client_id` holding the request's client id; and when the
handler returns a mapping (returns normally), the reply's type is present and
equal to `t ++ "_reply"`. -/
theorem bus_call_reply (selfId : String) (handlers : Dict (Dict PVal → HandlerRes))
    (t : String) (data : Dict PVal) (hdl : Dict PVal → HandlerRes)
    (hreg : dget handlers t = some hdl) :
    (∀ mt, (client_call selfId handlers t data).1.message_type = some mt →
        mt = t ++ "_reply") ∧
    dget (client_call selfId handlers t data).1.payload "client_id" =
      some (dgetD (requestPayload selfId data) "client_id" PVal.pnone) ∧
    (∀ d, hdl (requestPayload selfId data) = .ret (some d) →
        (client_call selfId handlers t data).1.message_type = some (t ++ "_reply")) := by
  have hstep := request_processor_step_registered handlers t hdl
    (requestPayload selfId data) hreg
  have hcc : (client_call selfId handlers t data).1 =
      request_processor_step handlers ⟨some t, requestPayload selfId data⟩ := rfl
  rw [hcc, hstep]
  cases hres : hdl (requestPayload selfId data) with
  | ret od =>
    cases od with
    | none =>
      refine ⟨?_, ?_, ?_⟩
      · intro mt hmt; simp at hmt
      · simp [dget]
      · intro d hd; simp at hd
    | some d =>
      refine ⟨?_, ?_, ?_⟩
      · intro mt hmt
        simpa using hmt.symm
      · exact dget_dset_self d "client_id" _
      · intro d2 hd2; rfl
  | exn e =>
    refine ⟨?_, ?_, ?_⟩
    · intro mt hmt; simp at hmt
    · simp [dget]
    · intro d hd; simp at hd

/-- A concrete registered handler for the witness below. -/
def pingHandler : Dict PVal → HandlerRes :=
  fun _ => .ret (some [("pong", PVal.str "1")])

/-- Witness for `bus_call_reply` on a concrete handler table. -/
theorem bus_call_reply_witness :
    dget [("ping", pingHandler)] "ping" = some pingHandler ∧
    dget (client_call "c1" [("ping", pingHandler)] "ping" []).1.payload "client_id" =
      some (dgetD (requestPayload "c1" []) "client_id" PVal.pnone) :=
  ⟨rfl, (bus_call_reply "c1" [("ping", pingHandler)] "ping" [] pingHandler rfl).2.1⟩

/-! ## ConnectionMixin (`src/zergswarm/connection_mixin.py`)

`do_request` is embedded as a function of an environment describing the call's
arguments and the transport's behaviour.  The URL prefixing
(`full_url_ = base_url + url` when `url` starts with `/`) only determines
where the request is sent, which the environment's `attempts` function
abstracts, so it does not appear as a separate observable.  Response headers
and cookies of detailed responses are opaque to every claim and are omitted
from the result value. -/

/-- The outcome of one `session.request(...)` call: a response (status, body
text, content type) or a raised `aiohttp.client.ClientError`. -/
inductive AttemptOutcome
  | resp (status : Nat) (body : String) (contentType : String)
  | clientError
deriving DecidableEq, Repr

/-- The arguments of one `do_request` call together with the transport
behaviour: `attempts i` is the outcome of the i-th HTTP request issued and
`durations i` the trace-measured duration of that attempt. -/
structure RequestEnv where
  /-- the session exists and is not closed -/
  sessionActive : Bool
  needsAuth : Bool
  /-- `self.__auth_headers` is truthy -/
  hasAuthHeaders : Bool
  /-- `data` is truthy -/
  hasData : Bool
  /-- `json_data` is truthy -/
  hasJsonData : Bool
  attempts : Nat → AttemptOutcome
  durations : Nat → ℚ
  /-- `error_status`; the empty list models a missing/empty (falsy) set -/
  errorStatus : List Nat
  maxRetries : Nat
  /-- `detailed_response` -/
  detailed : Bool
  /-- the instance's `self.__retry_delay` at call time -/
  retryDelay0 : ℚ

/-- A non-`None` return value of `do_request`. -/
inductive DRValue
  | plain (body : String)
  | detailedResp (body : String) (contentType : String)
deriving DecidableEq, Repr

/-- What a `do_request` call produces: return value, final shared report,
number of HTTP attempts issued, final retry delay. -/
structure DRResult where
  result : Option DRValue
  report : Report
  attemptsMade : Nat
  retryDelay : ℚ
deriving DecidableEq, Repr

/-- The delay update of `_wait_and_increment_delay`: ×1.5 below 60, +5 below
120, unchanged above. -/
def nextDelay (d : ℚ) : ℚ :=
  if d < 60 then d * (3 / 2) else if d < 120 then d + 5 else d

/-- The `while counter_ < self.__max_retries` loop of `do_request`, with
`fuel = max_retries - counter_` (both retry paths increment `counter_` by
exactly 1) and `idx` the number of requests issued so far:
* status `< 400`: success — record the duration, return the body (with
  content type when detailed);
* `1 == status // 400` (i.e. `400 ≤ status < 800`): monitored when in
  `error_status` (body returned), else one `other errors` and `break`;
* otherwise: monitored when in `error_status`; else `1 == status // 500`
  (i.e. `800 ≤ status < 1000` here): one `request errors`, sleep and retry;
  else fall through to the final `break`;
* `ClientError` raised: one `other errors`, retry without sleeping. -/
def drLoop (env : RequestEnv) (name : String) : Nat → Nat → ℚ → Report → DRResult
  | 0, idx, delay, rep => ⟨none, rep, idx, delay⟩
  | fuel + 1, idx, delay, rep =>
    match env.attempts idx with
    | .clientError =>
        drLoop env name fuel (idx + 1) delay (rep.add_error name "other errors")
    | .resp status body ct =>
      if status < 400 then
        ⟨some (if env.detailed then .detailedResp body ct else .plain body),
         rep.add_success name (env.durations idx), idx + 1, delay⟩
      else if status / 400 = 1 then
        if env.errorStatus ≠ [] ∧ status ∈ env.errorStatus then
          ⟨some (if env.detailed then .detailedResp body ct else .plain body),
           rep.add_error name "monitored errors", idx + 1, delay⟩
        else
          ⟨none, rep.add_error name "other errors", idx + 1, delay⟩
      else
        if env.errorStatus ≠ [] ∧ status ∈ env.errorStatus then
          ⟨some (if env.detailed then .detailedResp body ct else .plain body),
           rep.add_error name "monitored errors", idx + 1, delay⟩
        else if status / 500 = 1 then
          drLoop env name fuel (idx + 1) (nextDelay delay)
            (rep.add_error name "request errors")
        else
          ⟨none, rep, idx + 1, delay⟩

/-- `ConnectionMixin.do_request` acting on the shared report `r0`:
the pre-checks count a request error and return `None` when there is no
active session or auth is needed but missing; return `None` without counting
when both `data` and `json_data` are set; then run the retry loop. -/
def do_request (env : RequestEnv) (r0 : Report) (url : String)
    (nameArg : Option String) : DRResult :=
  let name := nameArg.getD url
  if env.sessionActive = false then
    ⟨none, { r0 with requestErrors := dincr r0.requestErrors name 1 }, 0, env.retryDelay0⟩
  else if env.needsAuth && !env.hasAuthHeaders then
    ⟨none, { r0 with requestErrors := dincr r0.requestErrors name 1 }, 0, env.retryDelay0⟩
  else if env.hasData && env.hasJsonData then
    ⟨none, r0, 0, env.retryDelay0⟩
  else
    drLoop env name env.maxRetries 0 env.retryDelay0 r0

/-- The environment of the C1 failing input: active session, no auth needed,
no monitored statuses, `max_retries = 10`, `retry_delay = 1`, and the target
answers 503 to every attempt. -/
def env503 : RequestEnv :=
  { sessionActive := true, needsAuth := false, hasAuthHeaders := false,
    hasData := false, hasJsonData := false,
    attempts := fun _ => .resp 503 "service unavailable" "text/html",
    durations := fun _ => 0, errorStatus := [], maxRetries := 10,
    detailed := false, retryDelay0 := 1 }

/-- C1, the code evaluated at the failing input: with every attempt answered
503 (and 503 ∉ error_status), `do_request` issues exactly one attempt, counts
one `other errors` — not `request errors` — and returns `None` without
retrying.  `1 == resp.status // 400` holds for every `400 ≤ status < 800`, so
real 5xx responses take the "4xx fatal" branch and the
`1 == resp.status // 500` retry branch can only see statuses 800–999. -/
theorem status_503_not_retried :
    do_request env503 Report.empty "/u" none =
      ⟨none, ⟨[], [], [], [("/u", 1)], []⟩, 1, 1⟩ := by decide

/-- The result of `do_request_json`'s post-processing: the decoded body,
alone or with the rest of the detailed tuple. -/
inductive JsonResult (J : Type)
  | plainJ (v : J)
  | detailedJ (v : J) (contentType : String)
deriving DecidableEq, Repr

/-- `ans_[1]` on a string: its character at index 1 as a one-character
string; `none` models the `IndexError` raised on shorter strings. -/
def secondChar (s : String) : Option String :=
  match s.toList.drop 1 with
  | [] => none
  | c :: _ => some (String.mk [c])

/-- `ConnectionMixin.do_request_json`: run `do_request` with the same
arguments, then
`if not ans_ or ans_[1] != "application/json": return None` and otherwise
JSON-decode `ans_[0]` (appending the tuple tail when detailed).  `json.loads`
is abstracted by the decoder parameter `jdec`.  When `detailed_response` is
false, `ans_` is the body string: `ans_[1]` is its second character (an
`IndexError` for bodies shorter than 2 characters), which never equals
`"application/json"`. -/
def do_request_json {J : Type} (jdec : String → J) (env : RequestEnv) (r0 : Report)
    (url : String) (nameArg : Option String) :
    Except String (Option (JsonResult J)) × Report × Nat × ℚ :=
  let r := do_request env r0 url nameArg
  let post : Except String (Option (JsonResult J)) :=
    match r.result with
    | none => .ok none
    | some (.plain body) =>
      if body = "" then .ok none
      else
        match secondChar body with
        | none => .error "IndexError"
        | some c =>
          if c ≠ "application/json" then .ok none
          else .ok (some (.plainJ (jdec body)))
    | some (.detailedResp body ct) =>
      if ct ≠ "application/json" then .ok none
      else .ok (some (.detailedJ (jdec body) ct))
  (post, r.report, r.attemptsMade, r.retryDelay)

instance exceptDecEq {ε α : Type} [DecidableEq ε] [DecidableEq α] :
    DecidableEq (Except ε α) := fun a b =>
  match a, b with
  | .ok x, .ok y =>
    if h : x = y then isTrue (congrArg Except.ok h)
    else isFalse (fun hc => h (Except.ok.inj hc))
  | .ok _, .error _ => isFalse (fun hc => Except.noConfusion hc)
  | .error _, .ok _ => isFalse (fun hc => Except.noConfusion hc)
  | .error x, .error y =>
    if h : x = y then isTrue (congrArg Except.error h)
    else isFalse (fun hc => h (Except.error.inj hc))

/-- The environment of the C6 failing input: one 200 response with content
type `application/json` and body `"42"`, with `detailed_response = False`
(the default). -/
def envJson : RequestEnv :=
  { sessionActive := true, needsAuth := false, hasAuthHeaders := false,
    hasData := false, hasJsonData := false,
    attempts := fun _ => .resp 200 "42" "application/json",
    durations := fun _ => 0, errorStatus := [], maxRetries := 10,
    detailed := false, retryDelay0 := 1 }

/-- C6, the code evaluated at the failing input: a 200 response with content
type `application/json` and decodable body still makes the default
(non-detailed) `do_request_json` return `None`: `do_request` returned the
body string, so `ans_[1]` is the character `"2"`, not the content type.  With
`detailed_response=True` the same response is decoded as the spec describes. -/
theorem do_request_json_drops_body :
    (do_request_json (fun s => s) envJson Report.empty "/u" none).1 = .ok none ∧
    do_request envJson Report.empty "/u" none =
      ⟨some (.plain "42"), ⟨[("/u", [(0 : ℚ)])], [], [], [], []⟩, 1, 1⟩ ∧
    (do_request_json (fun s => s) { envJson with detailed := true } Report.empty "/u" none).1 =
      .ok (some (.detailedJ "42" "application/json")) := by decide

end Zergswarm
